import Mathlib

/-!
Verification development for the Kobo2Notion repository (src/kobo2notion.py).

The Python source is shallowly embedded below.  Strings are modelled through
their character lists (`String.data`), so every Python string primitive used by
the source (`strip`, `lstrip`, `startswith`, slicing, `split`, `in`,
`replace`) gets an executable Lean counterpart defined on `List Char`.
-/

set_option maxHeartbeats 1000000
set_option maxRecDepth 100000

/-- models Python `s.lstrip()`: drop leading whitespace characters. -/
def pyLStrip (s : String) : String := String.mk (s.data.dropWhile Char.isWhitespace)

/-- models Python `s.rstrip()`: drop trailing whitespace characters. -/
def pyRStrip (s : String) : String :=
  String.mk ((s.data.reverse.dropWhile Char.isWhitespace).reverse)

/-- models Python `s.strip()`: drop whitespace on both ends. -/
def pyStrip (s : String) : String := pyLStrip (pyRStrip s)

/-- models Python `p in s` checked on character lists (substring containment). -/
def containsSub (sub : List Char) : List Char → Bool
  | [] => decide (sub = [])
  | c :: t => sub.isPrefixOf (c :: t) || containsSub sub t

/-- models the tail component of Python `s.split(sep, 1)`: the suffix after the
first occurrence of `sep`, or `none` when `sep` does not occur (in which case
Python's `split(sep, 1)[1]` would raise `IndexError`). -/
def afterFirst (sep : List Char) : List Char → Option (List Char)
  | [] => if sep = [] then some [] else none
  | c :: t =>
    if sep.isPrefixOf (c :: t) then some ((c :: t).drop sep.length)
    else afterFirst sep t

/-- models Python `s.startswith(p)`. -/
def pyStartsWith (p s : String) : Bool := p.data.isPrefixOf s.data

/-- models Python slicing `s[n:]` (by code points). -/
def strDrop (n : Nat) (s : String) : String := String.mk (s.data.drop n)

/-- models Python `s.lstrip("#")`. -/
def lstripHash (s : String) : String := String.mk (s.data.dropWhile (fun c => c = '#'))

/-- models `len(line.split()[0])`: the length of the leading maximal run of
non-whitespace characters.  `line.split()` splits on whitespace runs and drops
empty pieces; the heading branch only evaluates it on a trimmed line starting
with `'#'`, where `split()[0]` is exactly that leading run. -/
def firstTokenLen (s : String) : Nat :=
  (s.data.takeWhile (fun c => !c.isWhitespace)).length

/-- models Python `line[0].isdigit()`; the callers only reach this on a
non-empty line (the blank guard fired earlier), so the `[]` case is inert. -/
def firstCharIsDigit (s : String) : Bool :=
  match s.data with
  | [] => false
  | c :: _ => c.isDigit

/-- models `markdown_text.split("\n")` (empty pieces preserved). -/
def pySplitLinesAux : List Char → List String
  | [] => [""]
  | c :: t =>
    let rest := pySplitLinesAux t
    if c = '\n' then "" :: rest
    else
      match rest with
      | [] => [String.mk [c]]
      | r :: rs => String.mk (c :: r.data) :: rs

def pySplitLines (s : String) : List String := pySplitLinesAux s.data

/-- models `content.split("**")` on the character list: split greedily
left-to-right at each non-overlapping occurrence of the two-character
delimiter, keeping empty pieces.  `acc` holds the characters of the current
piece in reverse. -/
def splitBold : List Char → List Char → List (List Char)
  | '*' :: '*' :: rest, acc => acc.reverse :: splitBold rest []
  | c :: rest, acc => splitBold rest (c :: acc)
  | [], acc => [acc.reverse]

/-- models `str(h).strip().replace("\n", " ")`'s replacement step: every
embedded line break becomes a single space. -/
def collapseNl (s : String) : String :=
  String.mk (s.data.map (fun c => if c = '\n' then ' ' else c))

/- Basic facts about the string helpers. -/

theorem dropWhileIdem (p : Char → Bool) (l : List Char) :
    (l.dropWhile p).dropWhile p = l.dropWhile p := by
  induction l with
  | nil => simp [List.dropWhile]
  | cons c t ih =>
    by_cases h : p c = true
    · simpa [List.dropWhile, h] using ih
    · simp [List.dropWhile, h]

theorem pyLStrip_pyLStrip (s : String) : pyLStrip (pyLStrip s) = pyLStrip s := by
  simp [pyLStrip, dropWhileIdem]

theorem pyLStrip_pyStrip (s : String) : pyLStrip (pyStrip s) = pyStrip s := by
  simp [pyStrip, pyLStrip_pyLStrip]

theorem headDropWhileNot (p : Char → Bool) (l : List Char) (c : Char)
    (h : (l.dropWhile p).head? = some c) : p c = false := by
  induction l with
  | nil => simp [List.dropWhile] at h
  | cons a t ih =>
    by_cases ha : p a = true
    · exact ih (by simpa [List.dropWhile, ha] using h)
    · simp [List.dropWhile, ha] at h
      subst h
      simpa using ha

theorem dropWhileSuffix (p : Char → Bool) (l : List Char) :
    ∃ t, l = t ++ l.dropWhile p := by
  induction l with
  | nil => exact ⟨[], rfl⟩
  | cons a t ih =>
    by_cases ha : p a = true
    · obtain ⟨u, hu⟩ := ih
      exact ⟨a :: u, by simp [List.dropWhile, ha, ← hu]⟩
    · exact ⟨[], by simp [List.dropWhile, ha]⟩

theorem getLastAppendNe {α : Type} (l₁ l₂ : List α) (h : l₂ ≠ []) :
    (l₁ ++ l₂).getLast? = l₂.getLast? := by
  induction l₁ with
  | nil => rfl
  | cons a t ih =>
    rw [List.cons_append, List.getLast?_cons, ih]
    cases l₂ with
    | nil => exact absurd rfl h
    | cons b u => simp [List.getLast?_cons]

theorem getLastDropWhile (p : Char → Bool) (l : List Char)
    (h : l.dropWhile p ≠ []) : (l.dropWhile p).getLast? = l.getLast? := by
  obtain ⟨t, ht⟩ := dropWhileSuffix p l
  conv_rhs => rw [ht]
  rw [getLastAppendNe _ _ h]

theorem pyRStrip_last (s : String) (c : Char)
    (h : (pyRStrip s).data.getLast? = some c) : c.isWhitespace = false := by
  have h' : (s.data.reverse.dropWhile Char.isWhitespace).head? = some c := by
    have := h
    simp only [pyRStrip] at this
    rwa [List.getLast?_reverse] at this
  exact headDropWhileNot _ _ _ h'

theorem pyRStrip_fix (s : String)
    (h : ∀ c, s.data.getLast? = some c → c.isWhitespace = false) :
    pyRStrip s = s := by
  rcases hs : s.data.reverse with _ | ⟨c, t⟩
  · have hd : s.data = [] := by
      have := congrArg List.reverse hs
      simpa using this
    apply String.ext
    simp [pyRStrip, hd]
  · have hc : s.data.getLast? = some c := by
      rw [← List.head?_reverse, hs]; rfl
    have hcw : c.isWhitespace = false := h c hc
    have : s.data.reverse.dropWhile Char.isWhitespace = s.data.reverse := by
      rw [hs]
      simp [List.dropWhile, hcw]
    simp [pyRStrip, this]

theorem pyRStrip_pyLStrip_pyRStrip (s : String) :
    pyRStrip (pyLStrip (pyRStrip s)) = pyLStrip (pyRStrip s) := by
  apply pyRStrip_fix
  intro c hc
  rcases h0 : (pyLStrip (pyRStrip s)).data with _ | ⟨a, t⟩
  · rw [h0] at hc; simp at hc
  · have hne : (pyRStrip s).data.dropWhile Char.isWhitespace ≠ [] := by
      intro hnil
      rw [show (pyLStrip (pyRStrip s)).data
            = (pyRStrip s).data.dropWhile Char.isWhitespace from rfl, hnil] at h0
      exact absurd h0.symm (List.cons_ne_nil a t)
    have hlast : (pyLStrip (pyRStrip s)).data.getLast? = (pyRStrip s).data.getLast? := by
      show ((pyRStrip s).data.dropWhile Char.isWhitespace).getLast?
        = (pyRStrip s).data.getLast?
      exact getLastDropWhile _ _ hne
    rw [hlast] at hc
    exact pyRStrip_last s c hc

theorem pyStrip_idem (s : String) : pyStrip (pyStrip s) = pyStrip s := by
  show pyLStrip (pyRStrip (pyLStrip (pyRStrip s))) = pyLStrip (pyRStrip s)
  rw [pyRStrip_pyLStrip_pyRStrip, pyLStrip_pyLStrip]

theorem afterFirst_isSome (sep : List Char) (l : List Char)
    (h : containsSub sep l = true) : (afterFirst sep l).isSome = true := by
  induction l with
  | nil =>
    simp only [containsSub, decide_eq_true_eq] at h
    simp [afterFirst, h]
  | cons c t ih =>
    simp only [containsSub, Bool.or_eq_true] at h
    by_cases hp : sep.isPrefixOf (c :: t) = true
    · simp [afterFirst, hp]
    · rcases h with h | h
      · exact absurd h hp
      · simpa [afterFirst, hp] using ih h

/-!
## MarkupCompiler: `parse_markdown_to_notion_blocks` and its helpers

A Notion rich-text element dict is modelled by `RichText`: `content` is
`text.content`, and `bold` records whether the optional styling map with
`bold = True` was attached to the element.
-/

structure RichText where
  content : String
  bold : Bool
deriving DecidableEq, Repr

/-- A Notion block dict: `type` is the `"type"` entry (also the key of the
payload sub-dict), `rich` is the payload's `rich_text` list, and `children`
is the payload's optional `"children"` entry — `none` when the key is absent
(which `create_block` never sets, given its always-defaulted argument). -/
inductive Block where
  | mk (type : String) (rich : List RichText) (children : Option (List Block)) : Block

def Block.btype : Block → String
  | .mk t _ _ => t

def Block.rich : Block → List RichText
  | .mk _ r _ => r

def Block.children : Block → Option (List Block)
  | .mk _ _ c => c

/-- Embeds `parse_rich_text` (src/kobo2notion.py:440-449): split the content on
`"**"`, and for each non-empty piece append a text element, bold exactly at the
odd split indices. -/
def parse_rich_text (content : String) : List RichText :=
  (splitBold content.data []).enum.foldl
    (fun rich ip =>
      if ip.2 ≠ [] then rich ++ [⟨String.mk ip.2, ip.1 % 2 == 1⟩] else rich)
    []

/-- Embeds `create_block` (src/kobo2notion.py:427-438).  Every call site in the
source passes only two arguments, so the `children` parameter keeps its `None`
default and the `if children:` guard never attaches a `children` key. -/
def create_block (block_type : String) (content : String) : Block :=
  Block.mk block_type (parse_rich_text content) none

/-- The loop state of `parse_markdown_to_notion_blocks`.  `current_list`
models the `current_list` alias: the Python variable aliases a dict that (when
it is not `None`) lives inside `notion_blocks`, so it is represented by the
index of that block. -/
structure PState where
  notion_blocks : List Block
  current_list : Option Nat
  list_stack : List Nat

def initPState : PState := ⟨[], none, []⟩

def appendTop (st : PState) (indent : Nat) (new_item : Block) : PState :=
  ⟨st.notion_blocks ++ [new_item], some st.notion_blocks.length, [indent]⟩

/-- The shared body of the two list-item branches (src/kobo2notion.py:470-475
and 481-486): `if current_list and indent > list_stack[-1]:` attach the new
item into `current_list[bt]["children"]`, else append it at top level and
reset the list state.  Each spot where the Python expression can raise is an
`.error`: `list_stack[-1]` on an empty stack, and the `["children"]` lookup —
`create_block` never initializes that key, and the key `bt` itself is absent
when the open item has a different kind. -/
def attachOrAppend (st : PState) (bt : String) (indent : Nat) (new_item : Block) :
    Except String PState :=
  match st.current_list with
  | none => .ok (appendTop st indent new_item)
  | some i =>
    match st.list_stack.getLast? with
    | none => .error "IndexError: list_stack[-1]"
    | some base =>
      if indent > base then
        match st.notion_blocks.get? i with
        | none => .error "stale current_list alias"
        | some b =>
          if b.btype = bt then
            match b.children with
            | some cs =>
              .ok ⟨st.notion_blocks.set i (Block.mk bt b.rich (some (cs ++ [new_item]))),
                   st.current_list, st.list_stack⟩
            | none => .error "KeyError: children"
          else .error "KeyError: block payload key"
      else .ok (appendTop st indent new_item)

/-- Embeds one iteration of the line loop of `parse_markdown_to_notion_blocks`
(src/kobo2notion.py:451-495).  Note the source strips the line before it
measures the indentation, and then strips it again. -/
def processLine (st : PState) (rawLine : String) : Except String PState :=
  let line := pyStrip rawLine
  if line = "" then .ok st
  else
    let indent := line.length - (pyLStrip line).length
    let line := pyStrip line
    if pyStartsWith "#" line then
      let level := min (firstTokenLen line) 3
      let content := pyStrip (lstripHash line)
      .ok ⟨st.notion_blocks ++ [create_block ("heading_" ++ toString level) content],
           none, st.list_stack⟩
    else if pyStartsWith "- " line || pyStartsWith "* " line then
      let content := pyStrip (strDrop 2 line)
      attachOrAppend st "bulleted_list_item" indent (create_block "bulleted_list_item" content)
    else if firstCharIsDigit line && containsSub ". ".data line.data then
      match afterFirst ". ".data line.data with
      | none => .error "IndexError: split"
      | some rest =>
        let content := pyStrip (String.mk rest)
        attachOrAppend st "numbered_list_item" indent (create_block "numbered_list_item" content)
    else if pyStartsWith ">" line then
      let content := pyStrip (strDrop 1 line)
      .ok ⟨st.notion_blocks ++ [create_block "quote" content], none, st.list_stack⟩
    else
      .ok ⟨st.notion_blocks ++ [create_block "paragraph" line], none, st.list_stack⟩

/-- The line loop itself: thread the state through the lines, propagating any
raised error. -/
def runLines (st : PState) : List String → Except String PState
  | [] => .ok st
  | l :: ls =>
    match processLine st l with
    | .error e => .error e
    | .ok st' => runLines st' ls

/-- Embeds `parse_markdown_to_notion_blocks` (src/kobo2notion.py:411-497). -/
def parse_markdown_to_notion_blocks (markdown_text : String) :
    Except String (List Block) :=
  match runLines initPState (pySplitLines markdown_text) with
  | .ok st => .ok st.notion_blocks
  | .error e => .error e

/-!
## Parser invariants

`PInv` is the loop invariant of `parse_markdown_to_notion_blocks`:
`current_list` and `list_stack` are always assigned together, so whenever
`current_list` is not `None` the stack is non-empty and `list_stack[-1]`
cannot raise.
-/

def PInv (st : PState) : Prop := st.current_list.isSome = true → st.list_stack ≠ []

theorem getLastIsSome {α : Type} (l : List α) (h : l ≠ []) :
    ∃ x, l.getLast? = some x := by
  induction l with
  | nil => exact absurd rfl h
  | cons a t ih =>
    cases t with
    | nil => exact ⟨a, rfl⟩
    | cons b u =>
      obtain ⟨x, hx⟩ := ih (List.cons_ne_nil b u)
      exact ⟨x, by rw [List.getLast?_cons_cons]; exact hx⟩

/-- In the source the measured indent is always 0: the line was already
stripped when `len(line) - len(line.lstrip())` runs. -/
theorem indentZero (s : String) :
    (pyStrip s).length - (pyLStrip (pyStrip s)).length = 0 := by
  rw [pyLStrip_pyStrip, Nat.sub_self]

/-- With indent 0 the attach-as-child branch can never fire
(`indent > list_stack[-1]` fails for every recorded base indent), so both
list-item branches reduce to a top-level append. -/
theorem attachOrAppend_zero (st : PState) (bt : String) (item : Block)
    (hinv : PInv st) :
    attachOrAppend st bt 0 item = .ok (appendTop st 0 item) := by
  unfold attachOrAppend
  cases hc : st.current_list with
  | none => rfl
  | some i =>
    have hs : st.list_stack ≠ [] := hinv (by rw [hc]; rfl)
    obtain ⟨base, hbase⟩ := getLastIsSome st.list_stack hs
    rw [hbase]
    simp [Nat.not_lt_zero]

theorem processLine_blank (st : PState) (raw : String) (h : pyStrip raw = "") :
    processLine st raw = .ok st := by
  simp [processLine, h]

theorem pyStartsWith_ne_empty (p s : String) (hp : p ≠ "")
    (h : pyStartsWith p s = true) : s ≠ "" := by
  intro hs
  subst hs
  cases hp0 : p.data with
  | nil => exact hp (String.ext hp0)
  | cons c t =>
    rw [show pyStartsWith p "" = (p.data.isPrefixOf ([] : List Char)) from rfl, hp0] at h
    simp [List.isPrefixOf] at h

/-- The heading branch (src/kobo2notion.py:459-464), for an arbitrary loop
state: level is the length of the first whitespace-delimited token capped at
3, text is the line with leading `#` and surrounding whitespace stripped, and
the open list is closed. -/
theorem processLine_heading (st : PState) (raw : String)
    (hh : pyStartsWith "#" (pyStrip raw) = true) :
    processLine st raw = .ok
      ⟨st.notion_blocks ++
        [create_block ("heading_" ++ toString (min (firstTokenLen (pyStrip raw)) 3))
          (pyStrip (lstripHash (pyStrip raw)))],
       none, st.list_stack⟩ := by
  have hne : pyStrip raw ≠ "" :=
    pyStartsWith_ne_empty "#" (pyStrip raw) (by decide) hh
  simp only [processLine, pyStrip_idem]
  rw [if_neg hne, if_pos hh]

/-- The guard pattern of the two list-item branches, on an (already stripped)
line: not a heading, and either a bulleted marker or the numbered-item
heuristic (first character a digit and `". "` occurring anywhere). -/
def isListLine (line : String) : Bool :=
  !pyStartsWith "#" line &&
    (pyStartsWith "- " line || pyStartsWith "* " line ||
      (firstCharIsDigit line && containsSub ". ".data line.data))

/-- The item the list branches build from an (already stripped) line. -/
def listItemOf (line : String) : Block :=
  if pyStartsWith "- " line || pyStartsWith "* " line then
    create_block "bulleted_list_item" (pyStrip (strDrop 2 line))
  else
    create_block "numbered_list_item"
      (pyStrip (String.mk ((afterFirst ". ".data line.data).getD [])))

theorem isListLine_ne_empty (line : String) (h : isListLine line = true) :
    line ≠ "" := by
  intro he
  subst he
  rw [show isListLine "" = false from rfl] at h
  exact Bool.noConfusion h

/-- A list-looking line is always appended as a new top-level item opening a
fresh one-element list state with base indent 0 — the attach-as-child branch
cannot fire because the measured indent is always 0. -/
theorem processLine_listLine (st : PState) (raw : String) (hinv : PInv st)
    (hx : isListLine (pyStrip raw) = true) :
    processLine st raw = .ok (appendTop st 0 (listItemOf (pyStrip raw))) := by
  have hne : pyStrip raw ≠ "" := isListLine_ne_empty _ hx
  have hx' := hx
  unfold isListLine at hx'
  rw [Bool.and_eq_true, Bool.not_eq_true'] at hx'
  obtain ⟨hhash, hrest⟩ := hx'
  simp only [processLine, pyStrip_idem, indentZero]
  rw [if_neg hne, if_neg (by rw [hhash]; exact Bool.false_ne_true)]
  rw [Bool.or_eq_true, Bool.or_eq_true] at hrest
  rcases hrest with (hb | hb) | hnum
  · have hor : (pyStartsWith "- " (pyStrip raw) || pyStartsWith "* " (pyStrip raw)) = true := by
      rw [hb]; rfl
    rw [if_pos hor, attachOrAppend_zero st _ _ hinv]
    rw [listItemOf, if_pos hor]
  · have hor : (pyStartsWith "- " (pyStrip raw) || pyStartsWith "* " (pyStrip raw)) = true := by
      rw [hb, Bool.or_true]
    rw [if_pos hor, attachOrAppend_zero st _ _ hinv]
    rw [listItemOf, if_pos hor]
  · by_cases hor : (pyStartsWith "- " (pyStrip raw) || pyStartsWith "* " (pyStrip raw)) = true
    · rw [if_pos hor, attachOrAppend_zero st _ _ hinv]
      rw [listItemOf, if_pos hor]
    · rw [if_neg hor, if_pos hnum]
      have hcontains : containsSub ". ".data (pyStrip raw).data = true :=
        (Bool.and_eq_true _ _ |>.mp hnum).2
      obtain ⟨rest, hrest2⟩ :=
        Option.isSome_iff_exists.mp (afterFirst_isSome _ _ hcontains)
      rw [hrest2]
      show attachOrAppend st "numbered_list_item" 0
          (create_block "numbered_list_item" (pyStrip (String.mk rest)))
        = Except.ok (appendTop st 0 (listItemOf (pyStrip raw)))
      rw [attachOrAppend_zero st _ _ hinv, listItemOf, if_neg hor, hrest2]
      rfl

theorem processLine_quote (st : PState) (raw : String)
    (hne : pyStrip raw ≠ "")
    (hh : pyStartsWith "#" (pyStrip raw) = false)
    (hb1 : pyStartsWith "- " (pyStrip raw) = false)
    (hb2 : pyStartsWith "* " (pyStrip raw) = false)
    (hn : (firstCharIsDigit (pyStrip raw) &&
      containsSub ". ".data (pyStrip raw).data) = false)
    (hq : pyStartsWith ">" (pyStrip raw) = true) :
    processLine st raw = .ok
      ⟨st.notion_blocks ++ [create_block "quote" (pyStrip (strDrop 1 (pyStrip raw)))],
       none, st.list_stack⟩ := by
  simp only [processLine, pyStrip_idem]
  rw [if_neg hne, if_neg (by rw [hh]; exact Bool.false_ne_true),
    if_neg (by rw [hb1, hb2]; exact Bool.false_ne_true),
    if_neg (by rw [hn]; exact Bool.false_ne_true), if_pos hq]

theorem processLine_para (st : PState) (raw : String)
    (hne : pyStrip raw ≠ "")
    (hh : pyStartsWith "#" (pyStrip raw) = false)
    (hb1 : pyStartsWith "- " (pyStrip raw) = false)
    (hb2 : pyStartsWith "* " (pyStrip raw) = false)
    (hn : (firstCharIsDigit (pyStrip raw) &&
      containsSub ". ".data (pyStrip raw).data) = false)
    (hq : pyStartsWith ">" (pyStrip raw) = false) :
    processLine st raw = .ok
      ⟨st.notion_blocks ++ [create_block "paragraph" (pyStrip raw)],
       none, st.list_stack⟩ := by
  simp only [processLine, pyStrip_idem]
  rw [if_neg hne, if_neg (by rw [hh]; exact Bool.false_ne_true),
    if_neg (by rw [hb1, hb2]; exact Bool.false_ne_true),
    if_neg (by rw [hn]; exact Bool.false_ne_true),
    if_neg (by rw [hq]; exact Bool.false_ne_true)]

theorem listItemOf_children (line : String) : (listItemOf line).children = none := by
  unfold listItemOf
  split <;> rfl

/-- Every loop iteration succeeds from an invariant state: no exception is
ever raised, the invariant is preserved, and at most one new block — always
without a `children` key — gets appended at top level. -/
theorem processLine_ok (st : PState) (raw : String) (hinv : PInv st) :
    ∃ st', processLine st raw = .ok st' ∧ PInv st' ∧
      ∃ new, st'.notion_blocks = st.notion_blocks ++ new ∧
        ∀ b ∈ new, b.children = none := by
  by_cases hblank : pyStrip raw = ""
  · exact ⟨st, processLine_blank st raw hblank, hinv, [], by simp, by simp⟩
  by_cases hh : pyStartsWith "#" (pyStrip raw) = true
  · refine ⟨_, processLine_heading st raw hh, ?_, [create_block
      ("heading_" ++ toString (min (firstTokenLen (pyStrip raw)) 3))
      (pyStrip (lstripHash (pyStrip raw)))], rfl, ?_⟩
    · intro hsome; exact absurd hsome (by simp)
    · intro b hb
      rw [List.mem_singleton] at hb
      subst hb; rfl
  rw [Bool.not_eq_true] at hh
  by_cases hl : isListLine (pyStrip raw) = true
  · refine ⟨_, processLine_listLine st raw hinv hl, ?_,
      [listItemOf (pyStrip raw)], rfl, ?_⟩
    · intro _; exact List.cons_ne_nil 0 []
    · intro b hb
      rw [List.mem_singleton] at hb
      subst hb
      exact listItemOf_children _
  rw [Bool.not_eq_true] at hl
  have hdis : (pyStartsWith "- " (pyStrip raw) || pyStartsWith "* " (pyStrip raw) ||
      (firstCharIsDigit (pyStrip raw) && containsSub ". ".data (pyStrip raw).data))
      = false := by
    unfold isListLine at hl
    rw [hh] at hl
    simpa using hl
  rw [Bool.or_eq_false_iff, Bool.or_eq_false_iff] at hdis
  obtain ⟨⟨hb1, hb2⟩, hn⟩ := hdis
  by_cases hq : pyStartsWith ">" (pyStrip raw) = true
  · refine ⟨_, processLine_quote st raw hblank hh hb1 hb2 hn hq, ?_,
      [create_block "quote" (pyStrip (strDrop 1 (pyStrip raw)))], rfl, ?_⟩
    · intro hsome; exact absurd hsome (by simp)
    · intro b hb
      rw [List.mem_singleton] at hb
      subst hb; rfl
  rw [Bool.not_eq_true] at hq
  refine ⟨_, processLine_para st raw hblank hh hb1 hb2 hn hq, ?_,
    [create_block "paragraph" (pyStrip raw)], rfl, ?_⟩
  · intro hsome; exact absurd hsome (by simp)
  · intro b hb
    rw [List.mem_singleton] at hb
    subst hb; rfl

/-- The whole line loop succeeds from an invariant state and only ever
appends top-level blocks carrying no `children` key. -/
theorem runLines_ok (ls : List String) : ∀ st : PState, PInv st →
    ∃ st', runLines st ls = .ok st' ∧ PInv st' ∧
      ∃ new, st'.notion_blocks = st.notion_blocks ++ new ∧
        ∀ b ∈ new, b.children = none := by
  induction ls with
  | nil =>
    intro st h
    exact ⟨st, rfl, h, [], by simp, by simp⟩
  | cons l ls ih =>
    intro st h
    obtain ⟨st1, h1, hinv1, new1, hb1, hc1⟩ := processLine_ok st l h
    obtain ⟨st2, h2, hinv2, new2, hb2, hc2⟩ := ih st1 hinv1
    refine ⟨st2, ?_, hinv2, new1 ++ new2, ?_, ?_⟩
    · simp [runLines, h1, h2]
    · rw [hb2, hb1, List.append_assoc]
    · intro b hb
      rcases List.mem_append.mp hb with hb | hb
      · exact hc1 b hb
      · exact hc2 b hb

theorem runLines_append (l₁ l₂ : List String) (st : PState) :
    runLines st (l₁ ++ l₂) =
      match runLines st l₁ with
      | .ok st' => runLines st' l₂
      | .error e => .error e := by
  induction l₁ generalizing st with
  | nil => rfl
  | cons l ls ih =>
    simp only [List.cons_append, runLines]
    cases hp : processLine st l with
    | error e => rfl
    | ok st' => exact ih st'

/-- `parse_rich_text`, declaratively: enumerate the `"**"`-split pieces, drop
the empty ones, and mark a piece bold exactly when its split index is odd. -/
theorem parse_rich_text_eq (content : String) :
    parse_rich_text content =
      (splitBold content.data []).enum.filterMap
        (fun ip => if ip.2 = [] then none
          else some ⟨String.mk ip.2, ip.1 % 2 == 1⟩) := by
  unfold parse_rich_text
  generalize (splitBold content.data []).enum = ps
  suffices h : ∀ (qs : List (Nat × List Char)) (acc : List RichText),
      qs.foldl (fun rich ip =>
          if ip.2 ≠ [] then rich ++ [⟨String.mk ip.2, ip.1 % 2 == 1⟩] else rich) acc
        = acc ++ qs.filterMap (fun ip => if ip.2 = [] then none
            else some ⟨String.mk ip.2, ip.1 % 2 == 1⟩) by
    simpa using h ps []
  intro qs
  induction qs with
  | nil => intro acc; simp
  | cons p pt ih =>
    intro acc
    by_cases hp : p.2 = []
    · simpa [hp] using ih acc
    · have h2 := ih (acc ++ [⟨String.mk p.2, p.1 % 2 == 1⟩])
      rw [List.append_assoc, List.singleton_append] at h2
      simpa [hp] using h2

/-!
## AnnotationRenderer: `Kobo2Notion._prepare_bookmark_blocks`

A `Bookmark` row of the SQL result set: `highlight` is the `Text` column
(`bookmark["Highlight"]`), `note` is the annotation/comment column
(`bookmark` row's comment text), and `type` is the `Type` column
("highlight" for plain highlights, anything else is treated as a note).
`none` models SQL NULL / Python `None`.
-/

structure Bookmark where
  highlight : Option String
  note : Option String
  type : String
deriving DecidableEq, Repr

/-- Python truthiness of the optional note column value: `None` is falsy and
so is the empty string. -/
def truthyOpt (v : Option String) : Bool :=
  match v with
  | some s => s ≠ ""
  | none => false

/-- The body of the per-row loop of `_prepare_bookmark_blocks`
(src/kobo2notion.py:321-344), factored per record: the optional block that
the iteration appends. -/
def prepare_one (b : Bookmark) : Option Block :=
  let content := match b.highlight with
    | some h => collapseNl (pyStrip h)
    | none => ""
  let block_type := if b.type = "highlight" then "paragraph" else "quote"
  let content :=
    if b.type ≠ "highlight" ∧ truthyOpt b.note = true then
      let ann := pyStrip (b.note.getD "")
      if content ≠ "" then ann ++ "\n" ++ content else ann
    else content
  if content ≠ "" then some (Block.mk block_type [⟨content, false⟩] none) else none

/-- Embeds `Kobo2Notion._prepare_bookmark_blocks` (src/kobo2notion.py:311-345). -/
def prepare_bookmark_blocks (bs : List Bookmark) : List Block :=
  bs.foldl (fun blocks b =>
    match prepare_one b with
    | some blk => blocks ++ [blk]
    | none => blocks) []

/-- The renderer's per-record contract in the spec's terms (with the one
correction the code forces): normalize the highlight; a Highlight row gives a
Paragraph; any other row gives a Quote whose content is the stripped note
joined to the highlight by a newline when the raw note is a non-empty string
(even one that strips to nothing), and the highlight alone only when the note
is absent or the empty string; rows with nothing to say are skipped. -/
def normalizeHighlight (v : Option String) : String :=
  match v with
  | some s => collapseNl (pyStrip s)
  | none => ""

def prepare_one_spec (b : Bookmark) : Option Block :=
  if b.type = "highlight" then
    if normalizeHighlight b.highlight = "" then none
    else some (Block.mk "paragraph" [⟨normalizeHighlight b.highlight, false⟩] none)
  else
    match b.note with
    | none =>
      if normalizeHighlight b.highlight = "" then none
      else some (Block.mk "quote" [⟨normalizeHighlight b.highlight, false⟩] none)
    | some n =>
      if n = "" then
        if normalizeHighlight b.highlight = "" then none
        else some (Block.mk "quote" [⟨normalizeHighlight b.highlight, false⟩] none)
      else
        if normalizeHighlight b.highlight = "" then
          if pyStrip n = "" then none
          else some (Block.mk "quote" [⟨pyStrip n, false⟩] none)
        else some (Block.mk "quote"
          [⟨pyStrip n ++ "\n" ++ normalizeHighlight b.highlight, false⟩] none)

theorem stringAppendData (a b : String) : (a ++ b).data = a.data ++ b.data := rfl

theorem prepare_one_eq_spec (b : Bookmark) : prepare_one b = prepare_one_spec b := by
  obtain ⟨hl, nt, ty⟩ := b
  by_cases hty : ty = "highlight"
  · subst hty
    simp [prepare_one, prepare_one_spec, truthyOpt, normalizeHighlight]
  · cases nt with
    | none =>
      simp [prepare_one, prepare_one_spec, truthyOpt, normalizeHighlight, hty]
    | some n =>
      by_cases hn : n = ""
      · subst hn
        simp [prepare_one, prepare_one_spec, truthyOpt, normalizeHighlight, hty]
      · rcases hl with _ | h
        · simp [prepare_one, prepare_one_spec, truthyOpt, normalizeHighlight, hty, hn]
        · by_cases hh : collapseNl (pyStrip h) = ""
          · simp [prepare_one, prepare_one_spec, truthyOpt, normalizeHighlight, hty, hn, hh]
          · have hne : pyStrip n ++ "\n" ++ collapseNl (pyStrip h) ≠ "" := by
              intro hcon
              have := congrArg String.data hcon
              rw [stringAppendData, stringAppendData] at this
              simp at this
            simp [prepare_one, prepare_one_spec, truthyOpt, normalizeHighlight, hty, hn, hh, hne]

theorem prepare_bookmark_blocks_eq (bs : List Bookmark) :
    prepare_bookmark_blocks bs = bs.filterMap prepare_one_spec := by
  unfold prepare_bookmark_blocks
  suffices h : ∀ (l : List Bookmark) (acc : List Block),
      l.foldl (fun blocks b =>
        match prepare_one b with
        | some blk => blocks ++ [blk]
        | none => blocks) acc = acc ++ l.filterMap prepare_one_spec by
    simpa using h bs []
  intro l
  induction l with
  | nil => intro acc; simp
  | cons b bt ih =>
    intro acc
    rw [List.foldl_cons, List.filterMap_cons, prepare_one_eq_spec]
    cases hs : prepare_one_spec b with
    | none => simp [ih]
    | some blk => simp [ih]

/-!
## `Kobo2Notion.sync_blocks`: batching of appendChildren calls

The loop `for i in range(0, len(blocks), 100)` issues one
`blocks.children.append` call per slice `blocks[i:i+100]`.  `chunksAux` is
that loop with an explicit iteration bound: each iteration consumes the next
100 blocks, and a bound of `blocks.length` dominates the iteration count.
-/

def chunksAux : Nat → List Block → List (List Block)
  | 0, _ => []
  | _, [] => []
  | Nat.succ fuel, b :: bs => ((b :: bs).take 100) :: chunksAux fuel ((b :: bs).drop 100)

/-- The list of `children` payloads of the `appendChildren` calls issued by
`sync_blocks` (src/kobo2notion.py:347-362), in call order. -/
def sync_blocks_batches (blocks : List Block) : List (List Block) :=
  chunksAux blocks.length blocks

theorem chunksAux_spec : ∀ (fuel : Nat) (blocks : List Block),
    blocks.length ≤ fuel →
    (chunksAux fuel blocks).length = (blocks.length + 99) / 100 ∧
    (chunksAux fuel blocks).flatten = blocks ∧
    (chunksAux fuel blocks).all (fun b => decide (b.length ≤ 100)) = true := by
  intro fuel
  induction fuel with
  | zero =>
    intro blocks h
    have hb : blocks = [] := List.eq_nil_of_length_eq_zero (Nat.le_zero.mp h)
    subst hb
    exact ⟨rfl, rfl, rfl⟩
  | succ fuel ih =>
    intro blocks h
    cases blocks with
    | nil => exact ⟨rfl, rfl, rfl⟩
    | cons b bs =>
      have hlen : ((b :: bs).drop 100).length ≤ fuel := by
        rw [List.length_drop]
        have := h
        simp only [List.length_cons] at this ⊢
        omega
      obtain ⟨ihl, ihj, iha⟩ := ih ((b :: bs).drop 100) hlen
      refine ⟨?_, ?_, ?_⟩
      · show (((b :: bs).take 100) :: chunksAux fuel ((b :: bs).drop 100)).length
          = ((b :: bs).length + 99) / 100
        rw [List.length_cons, ihl, List.length_drop]
        have hpos : 0 < (b :: bs).length := by simp
        omega
      · show ((b :: bs).take 100 :: chunksAux fuel ((b :: bs).drop 100)).flatten
          = b :: bs
        rw [List.flatten_cons, ihj, List.take_append_drop]
      · show ((b :: bs).take 100 :: chunksAux fuel ((b :: bs).drop 100)).all
            (fun b => decide (b.length ≤ 100)) = true
        rw [List.all_cons, iha, Bool.and_true]
        simp [List.length_take]

/-!
## `Kobo2Notion._update_existing_page`: the highlights-replacement machine

The DocumentStore is an external collaborator; one main page's child-block
state is modelled from the spec.  Modelled from the spec: `listChildren`
returns the page's live child blocks in order, and `archive` marks a block
hidden ("mark hidden, not delete"), after which the listing no longer
returns it — that is what hiding means for the consumer.  A child block of
the main page is either the "Highlights" child page created by
`_create_highlight_page`, or an ordinary content block: with summarization
enabled, `sync_bookmarks` (src/kobo2notion.py:304) appends the compiled
summary blocks to the same main page.  `nextId` generates fresh block
identifiers.
-/

inductive ChildKind where
  | highlightsPage
  | contentBlock
deriving DecidableEq, Repr

structure HChild where
  id : Nat
  kind : ChildKind
  archived : Bool
deriving DecidableEq, Repr

structure MainPage where
  children : List HChild
  nextId : Nat
deriving DecidableEq, Repr

/-- Modelled from the spec: `listChildren(pageId)` — the live (non-hidden)
child blocks in order; embeds `notion_client.blocks.children.list`. -/
def listChildren (p : MainPage) : List HChild :=
  p.children.filter (fun c => !c.archived)

/-- Embeds `Kobo2Notion._archive_old_highlights` (src/kobo2notion.py:257-270):
list the page's children and, if any exist, archive the first one — whatever
kind of block it is; the code never checks that `results[0]` is the
highlights child.  (Archiving is modelled as succeeding on any block, per the
spec's `archive(blockId)` interface; against the real API, archiving a
non-page block through the pages endpoint would instead raise and abort the
run — either way the replace invariant is lost.) -/
def archive_old_highlights (p : MainPage) : MainPage :=
  match listChildren p with
  | [] => p
  | h :: _ =>
    { p with children :=
        (p.children.map (fun c => if c.id = h.id then { c with archived := true } else c)) }

/-- Embeds `Kobo2Notion._create_highlight_page` (src/kobo2notion.py:217-230):
create a fresh, empty highlights child page under the main page; returns the
new state and the created page's id. -/
def create_highlight_page (p : MainPage) : MainPage × Nat :=
  ({ children := p.children ++ [⟨p.nextId, ChildKind.highlightsPage, false⟩],
     nextId := p.nextId + 1 }, p.nextId)

/-- Embeds the highlights part of `Kobo2Notion._update_existing_page`
(src/kobo2notion.py:232-255): archive the old highlights child, then create a
fresh one (the property/cover/icon update does not touch the children). -/
def update_existing_page (p : MainPage) : MainPage × Nat :=
  create_highlight_page (archive_old_highlights p)

/-- Embeds the summary write of `sync_bookmarks` (src/kobo2notion.py:302-304):
`sync_blocks(page_ids["parent_page"], summary_blocks)` appends the compiled
summary blocks — here `n` of them — as fresh content-block children of the
main page. -/
def append_summary_blocks : MainPage → Nat → MainPage
  | p, 0 => p
  | p, Nat.succ k =>
    append_summary_blocks
      ⟨p.children ++ [⟨p.nextId, ChildKind.contentBlock, false⟩], p.nextId + 1⟩ k

/-- One `sync_bookmarks` iteration (src/kobo2notion.py:277-307) for a record
whose page does not exist yet: create the main page and its highlights child
(the bookmark blocks go inside the highlights child, not onto the main page),
then — when summarization is enabled — append the `nSummary` summary blocks
to the main page. -/
def sync_run_new (summarize : Bool) (nSummary : Nat) : MainPage :=
  let p1 := (create_highlight_page ⟨[], 0⟩).1
  if summarize then append_summary_blocks p1 nSummary else p1

/-- One `sync_bookmarks` iteration for a record whose page already exists:
update it in place (archive `results[0]`, create a fresh highlights child),
then — when summarization is enabled — append the summary blocks to the main
page. -/
def sync_run_existing (summarize : Bool) (nSummary : Nat) (p : MainPage) : MainPage :=
  let p1 := (update_existing_page p).1
  if summarize then append_summary_blocks p1 nSummary else p1

/-- The number of live (non-archived) highlights children under the main
page. -/
def countLiveHighlights (p : MainPage) : Nat :=
  (p.children.filter
    (fun c => !c.archived && c.kind == ChildKind.highlightsPage)).length

/-!
## `Kobo2Notion.sync_bookmarks`: the orchestrator loop

The per-book loop (src/kobo2notion.py:272-309).  The external effects are
oracles: `pageOp` stands for `get_or_create_page` for a given book title (it
either returns the page ids or raises).  The loop body has no try/except, so
a raised exception propagates out of the `for` loop and ends the entire run.
The function returns the titles that were fully synced, in order, paired with
the error that ended the run early (if any).
-/

def sync_bookmarks (pageOp : String → Except String Nat) :
    List String → List String × Option String
  | [] => ([], none)
  | b :: rest =>
    match pageOp b with
    | .error e => ([], some e)
    | .ok _ =>
      match sync_bookmarks pageOp rest with
      | (done, err) => (b :: done, err)

/-- A `get_or_create_page` oracle that raises on one given title and succeeds
on every other. -/
def pageOpFailsOn (bad : String) : String → Except String Nat :=
  fun t => if t = bad then .error "APIError" else .ok 0

theorem sync_bookmarks_aborts (pageOp : String → Except String Nat)
    (pre : List String) (b : String) (rest : List String) (e : String)
    (hpre : ∀ t ∈ pre, (pageOp t).isOk = true)
    (hb : pageOp b = .error e) :
    sync_bookmarks pageOp (pre ++ b :: rest) = (pre, some e) := by
  induction pre with
  | nil =>
    simp only [List.nil_append, sync_bookmarks, hb]
  | cons p pt ih =>
    have hok : (pageOp p).isOk = true := hpre p (List.mem_cons_self p pt)
    obtain ⟨n, hn⟩ : ∃ n, pageOp p = .ok n := by
      cases hcase : pageOp p with
      | error e' => rw [hcase] at hok; exact absurd hok (by simp [Except.isOk, Except.toBool])
      | ok n => exact ⟨n, rfl⟩
    have ih' := ih (fun t ht => hpre t (List.mem_cons_of_mem p ht))
    simp only [List.cons_append, sync_bookmarks, hn, List.append_eq, ih']

/-!
## `Kobo2Notion.fetch_book_cover` and the head of `get_or_create_page`

The Google Books HTTP calls are oracles: `search` stands for
`requests.get(search url).json()` — it either raises (`.error`) or returns
the `"items"` array (`data.get("items", [])`, with the absent key modelled as
the empty list, and each item reduced to its `id` and its ISBN_13
identifiers); `image` stands for `requests.get(image url).status_code` on a
given URL, which can likewise raise.
-/

structure GBooksItem where
  id : String
  isbn13 : List String
deriving DecidableEq, Repr

structure CoverHttp where
  search : Except String (List GBooksItem)
  image : String → Except String Nat

def coverImageUrl (bid : String) : String :=
  "https://books.google.com/books/publisher/content/images/frontcover/" ++ bid
    ++ "?fife=w1200-h1200"

/-- Embeds `Kobo2Notion.fetch_book_cover` (src/kobo2notion.py:106-143): pick
the first item whose ISBN_13 identifiers match, defaulting to the first item
when none match and to `None` when there are no items; when `book_id` is
falsy return `None`; otherwise probe the cover image URL and return it only
on status 200.  No call is wrapped in try/except, so a raising HTTP call
propagates. -/
def fetch_book_cover (http : CoverHttp) (title isbn : String) :
    Except String (Option String) :=
  match http.search with
  | .error e => .error e
  | .ok items =>
    let book_id : Option String :=
      match items.find? (fun it => it.isbn13.contains isbn) with
      | some it => some it.id
      | none => items.head?.map (fun it => it.id)
    match book_id with
    | none => .ok none
    | some bid =>
      if bid = "" then .ok none
      else
        match http.image (coverImageUrl bid) with
        | .error e => .error e
        | .ok status => .ok (if status = 200 then some (coverImageUrl bid) else none)

/-- What the rest of `get_or_create_page` sees: the resolved cover (possibly
`None`) and the fact that the page query/update/create steps ran
(`pageDone`); those steps are DocumentStore effects abstracted to a flag. -/
structure PageOutcome where
  cover : Option String
  pageDone : Bool
deriving DecidableEq, Repr

/-- Embeds the entry of `Kobo2Notion.get_or_create_page`
(src/kobo2notion.py:145-182): the cover fetch runs first with no try/except,
so its exception aborts the record before any page step; otherwise the
properties are built and the query/update/create path runs with the returned
cover value. -/
def get_or_create_page (http : CoverHttp) (title isbn : String) :
    Except String PageOutcome :=
  match fetch_book_cover http title isbn with
  | .error e => .error e
  | .ok cover => .ok ⟨cover, true⟩

/-- An oracle whose search call raises (e.g. a connection error). -/
def connErrorHttp : CoverHttp :=
  ⟨.error "ConnectionError", fun _ => .ok 200⟩

/-- An oracle whose search succeeds with no items. -/
def emptySearchHttp : CoverHttp :=
  ⟨.ok [], fun _ => .ok 200⟩

/-- An oracle that finds one volume but whose cover image probe returns 404. -/
def notFoundImageHttp : CoverHttp :=
  ⟨.ok [⟨"vol1", []⟩], fun _ => .ok 404⟩

/-!
## The claims
-/

/-- C1: the spec (and the compiler's own docstring, which promises "nested
structures") say `compile("- a\n  - b")` yields one top-level BulletItem "a"
whose children hold BulletItem "b", because indentation deeper than the open
list's base indent attaches the item as a child.  The code strips each line
before measuring its indentation, so the indent is always 0: "  - b" becomes
a second top-level item, and no child attachment ever happens. -/
theorem c1_nesting_never_attaches :
    parse_markdown_to_notion_blocks "- a\n  - b" =
      .ok [Block.mk "bulleted_list_item" [⟨"a", false⟩] none,
           Block.mk "bulleted_list_item" [⟨"b", false⟩] none] ∧
    parse_markdown_to_notion_blocks "- a\n  - b" ≠
      .ok [Block.mk "bulleted_list_item" [⟨"a", false⟩]
            (some [Block.mk "bulleted_list_item" [⟨"b", false⟩] none])] := by
  refine ⟨rfl, ?_⟩
  intro h
  rw [show parse_markdown_to_notion_blocks "- a\n  - b" =
      Except.ok [Block.mk "bulleted_list_item" [⟨"a", false⟩] none,
        Block.mk "bulleted_list_item" [⟨"b", false⟩] none] from rfl] at h
  injection h with h1
  have := congrArg List.length h1
  simp at this

/-- C2: the claim (and `_archive_old_highlights`'s own docstring, "Delete old
highlights by archiving it") say every update run archives the page's current
highlights child and creates a fresh empty one, leaving exactly one live
highlights child after every run.  The code archives
`children.list(...)["results"][0]`, the *first* live child of the main page.
With summarization enabled the summary blocks live on the same main page: on
the first two runs `results[0]` is still the highlights child, but on the
third run it is the oldest live summary block — that run archives a summary
block and leaves two live highlights children, so stale highlight content
stays live.  With summarization disabled the claimed invariant does hold run
after run. -/
theorem c2_third_run_breaks_replace :
    countLiveHighlights (sync_run_new true 1) = 1 ∧
    countLiveHighlights (sync_run_existing true 1 (sync_run_new true 1)) = 1 ∧
    countLiveHighlights (sync_run_existing true 1
      (sync_run_existing true 1 (sync_run_new true 1))) = 2 ∧
    ((listChildren (sync_run_existing true 1 (sync_run_new true 1))).head?.map
      (fun c => c.kind)) = some ChildKind.contentBlock ∧
    countLiveHighlights (sync_run_new false 0) = 1 ∧
    countLiveHighlights (sync_run_existing false 0 (sync_run_new false 0)) = 1 ∧
    countLiveHighlights (sync_run_existing false 0
      (sync_run_existing false 0 (sync_run_new false 0))) = 1 := by
  decide

/-- C3: `sync_blocks` issues exactly ⌈N/100⌉ appendChildren calls, the call
payloads are consecutive slices of the input whose concatenation restores it
in order, every payload holds at most 100 blocks, and 250 input blocks give
exactly the call sizes 100, 100, 50. -/
theorem c3_batching (blocks : List Block) :
    (sync_blocks_batches blocks).length = (blocks.length + 99) / 100 ∧
    (sync_blocks_batches blocks).flatten = blocks ∧
    (sync_blocks_batches blocks).all (fun b => decide (b.length ≤ 100)) = true ∧
    (sync_blocks_batches (List.replicate 250 (Block.mk "paragraph" [] none))).map
      List.length = [100, 100, 50] := by
  obtain ⟨hl, hj, ha⟩ := chunksAux_spec blocks.length blocks (Nat.le_refl _)
  exact ⟨hl, hj, ha, rfl⟩

/-- What the claim says the heading level is: the count of leading `#`
characters (to be clamped at 3). -/
def countLeadingHash (s : String) : Nat :=
  (s.data.takeWhile (fun c => c = '#')).length

/-- C4 counterexample: on the line "#Deep" (no space after the hash) the
claimed level — count of leading `#` clamped to 3 — is 1, but the code uses
the length of the whole first whitespace-delimited token, so it emits a
`heading_3` block. -/
theorem c4_counterexample :
    parse_markdown_to_notion_blocks "#Deep" =
      .ok [Block.mk "heading_3" [⟨"Deep", false⟩] none] ∧
    min (countLeadingHash "#Deep") 3 = 1 ∧
    "heading_3" ≠ "heading_" ++ toString (min (countLeadingHash "#Deep") 3) := by
  refine ⟨rfl, rfl, ?_⟩
  decide

/-- C4 (amended): for every line starting with `#` the emitted block is a
heading whose level is the length of the first whitespace-delimited token
clamped to 3 (for standard headings, where the `#` run is followed by a
space, this equals the `#` count clamped to 3), whose text is the remainder
with leading `#` and whitespace stripped, and the open list is closed;
in particular `compile("#### Deep")` yields level 3, not 4. -/
theorem c4_heading_level (st : PState) (raw : String)
    (hh : pyStartsWith "#" (pyStrip raw) = true) :
    processLine st raw = .ok
      ⟨st.notion_blocks ++
        [create_block ("heading_" ++ toString (min (firstTokenLen (pyStrip raw)) 3))
          (pyStrip (lstripHash (pyStrip raw)))],
       none, st.list_stack⟩ ∧
    min (firstTokenLen (pyStrip raw)) 3 ≤ 3 ∧
    parse_markdown_to_notion_blocks "#### Deep" =
      .ok [Block.mk "heading_3" [⟨"Deep", false⟩] none] :=
  ⟨processLine_heading st raw hh, Nat.min_le_right _ _, rfl⟩

/-- C4 witness: the amended theorem at the concrete line "# Title". -/
theorem c4_heading_level_witness :
    processLine initPState "# Title" = .ok
      ⟨initPState.notion_blocks ++
        [create_block ("heading_" ++ toString (min (firstTokenLen (pyStrip "# Title")) 3))
          (pyStrip (lstripHash (pyStrip "# Title")))],
       none, initPState.list_stack⟩ ∧
    min (firstTokenLen (pyStrip "# Title")) 3 ≤ 3 ∧
    parse_markdown_to_notion_blocks "#### Deep" =
      .ok [Block.mk "heading_3" [⟨"Deep", false⟩] none] :=
  c4_heading_level initPState "# Title" rfl

/-- C5: a blank line between two list-item lines never lets the later item
nest under the earlier list: whatever was compiled before, the list-looking
line after the blank is appended as a new top-level item (with no `children`
key) that opens a fresh list state with base indent 0 — regardless of the
later line's indentation. -/
theorem c5_blank_line_new_list (pre : List String) (blank x : String)
    (hblank : pyStrip blank = "")
    (hx : isListLine (pyStrip x) = true) :
    (runLines initPState pre).isOk = true ∧
    runLines initPState (pre ++ [blank, x]) =
      (runLines initPState pre).map (fun st =>
        ⟨st.notion_blocks ++ [listItemOf (pyStrip x)],
         some st.notion_blocks.length, [0]⟩) ∧
    (listItemOf (pyStrip x)).children = none := by
  obtain ⟨st, hrun, hinv, new, hblocks, hch⟩ :=
    runLines_ok pre initPState (by intro h; simp [initPState] at h)
  refine ⟨by rw [hrun]; rfl, ?_, listItemOf_children _⟩
  rw [runLines_append, hrun]
  show runLines st [blank, x] = Except.ok (appendTop st 0 (listItemOf (pyStrip x)))
  simp [runLines, processLine_blank st blank hblank,
    processLine_listLine st x hinv hx]

/-- C5 witness: "- a", then a blank line, then the indented "  - b". -/
theorem c5_blank_line_new_list_witness :
    (runLines initPState ["- a"]).isOk = true ∧
    runLines initPState (["- a"] ++ ["", "  - b"]) =
      (runLines initPState ["- a"]).map (fun st =>
        ⟨st.notion_blocks ++ [listItemOf (pyStrip "  - b")],
         some st.notion_blocks.length, [0]⟩) ∧
    (listItemOf (pyStrip "  - b")).children = none :=
  c5_blank_line_new_list ["- a"] "" "  - b" rfl rfl

/-- C6: inline span parsing splits the text on `"**"`, drops the empty
pieces, marks a piece bold exactly when its split index is odd, and keeps
piece order; no empty span is ever emitted, and
`compile("plain **bold** tail")` yields plain "plain ", bold "bold",
plain " tail". -/
theorem c6_inline_spans :
    (∀ c : String, parse_rich_text c =
      (splitBold c.data []).enum.filterMap
        (fun ip => if ip.2 = [] then none
          else some ⟨String.mk ip.2, ip.1 % 2 == 1⟩)) ∧
    (∀ c : String, (parse_rich_text c).all (fun rt => !(rt.content == "")) = true) ∧
    parse_markdown_to_notion_blocks "plain **bold** tail" =
      .ok [Block.mk "paragraph"
        [⟨"plain ", false⟩, ⟨"bold", true⟩, ⟨" tail", false⟩] none] := by
  refine ⟨parse_rich_text_eq, ?_, rfl⟩
  intro c
  rw [List.all_eq_true]
  intro rt hrt
  rw [parse_rich_text_eq] at hrt
  obtain ⟨ip, hip, hf⟩ := List.mem_filterMap.mp hrt
  by_cases hz : ip.2 = []
  · rw [if_pos hz] at hf
    exact Option.noConfusion hf
  · rw [if_neg hz] at hf
    have heq := Option.some.inj hf
    have hne : String.mk ip.2 ≠ "" := by
      intro hcon
      have hdata := congrArg String.data hcon
      exact hz (by simpa using hdata)
    rw [← heq]
    simp [hne]

/-- A Note row whose comment column holds only whitespace, with highlight
text "h". -/
def wsNoteRec : Bookmark := ⟨some "h", some " ", "note"⟩

/-- C7 counterexample: for a Note record whose note is the whitespace string
" " and whose highlight is "h", the claim's "highlight alone when the note is
empty" form would be a Quote "h" — but the code tests presence on the raw
note and strips it afterwards, so it emits Quote "\nh" (a leading newline
joined to the highlight). -/
theorem c7_counterexample :
    prepare_bookmark_blocks [wsNoteRec] = [Block.mk "quote" [⟨"\nh", false⟩] none] ∧
    prepare_bookmark_blocks [wsNoteRec] ≠ [Block.mk "quote" [⟨"h", false⟩] none] := by
  refine ⟨rfl, ?_⟩
  intro h
  rw [show prepare_bookmark_blocks [wsNoteRec]
      = [Block.mk "quote" [⟨"\nh", false⟩] none] from rfl] at h
  injection h with h1 h2
  injection h1 with ht hr hc
  injection hr with hx hrest
  injection hx with hcontent hbold
  exact absurd hcontent (by decide)

/-- An emitted renderer block: exactly one plain span, non-empty text, no
`children` key. -/
def blockHasText (blk : Block) : Bool :=
  match blk with
  | Block.mk _ [rt] none => !(rt.content == "")
  | _ => false

theorem appendNlNeEmpty (a b : String) : a ++ "\n" ++ b ≠ "" := by
  intro h
  have hdata := congrArg String.data h
  rw [stringAppendData, stringAppendData] at hdata
  simp at hdata

theorem prepare_one_spec_hasText (b : Bookmark) (blk : Block)
    (h : prepare_one_spec b = some blk) : blockHasText blk = true := by
  unfold prepare_one_spec at h
  split at h
  · split at h
    · exact Option.noConfusion h
    · next hne =>
      rw [← Option.some.inj h]
      simpa [blockHasText] using hne
  · split at h
    · split at h
      · exact Option.noConfusion h
      · next hne =>
        rw [← Option.some.inj h]
        simpa [blockHasText] using hne
    · next n hnote =>
      split at h
      · split at h
        · exact Option.noConfusion h
        · next hne =>
          rw [← Option.some.inj h]
          simpa [blockHasText] using hne
      · split at h
        · split at h
          · exact Option.noConfusion h
          · next hns =>
            rw [← Option.some.inj h]
            simpa [blockHasText] using hns
        · next hh =>
          rw [← Option.some.inj h]
          simpa [blockHasText] using appendNlNeEmpty (pyStrip n) (normalizeHighlight b.highlight)

/-- C7 (amended): the renderer is the per-record map `prepare_one_spec`
filtered over the input in order (so at most one block per record and never
more blocks than records), and every emitted block carries exactly one
non-empty plain span; the per-record map matches the claim except that a
whitespace-only note is joined to the highlight as "\n" ++ highlight rather
than yielding the highlight alone. -/
theorem c7_renderer :
    (∀ bs : List Bookmark, prepare_bookmark_blocks bs = bs.filterMap prepare_one_spec) ∧
    (∀ bs : List Bookmark, (prepare_bookmark_blocks bs).length ≤ bs.length) ∧
    (∀ bs : List Bookmark, (prepare_bookmark_blocks bs).all blockHasText = true) := by
  refine ⟨prepare_bookmark_blocks_eq, ?_, ?_⟩
  · intro bs
    rw [prepare_bookmark_blocks_eq]
    exact List.length_filterMap_le _ _
  · intro bs
    rw [prepare_bookmark_blocks_eq, List.all_eq_true]
    intro blk hblk
    obtain ⟨b, hb, hf⟩ := List.mem_filterMap.mp hblk
    exact prepare_one_spec_hasText b blk hf

/-- C8 counterexample: with two books where the page operation raises on the
first, the run ends with that error and the second book is never synced —
the loop has no per-record exception isolation, contradicting "proceed to
the next record (no global abort)". -/
theorem c8_counterexample :
    sync_bookmarks (pageOpFailsOn "B1") ["B1", "B2"] = ([], some "APIError") ∧
    "B2" ∉ (sync_bookmarks (pageOpFailsOn "B1") ["B1", "B2"]).1 := by
  refine ⟨rfl, ?_⟩
  rw [show (sync_bookmarks (pageOpFailsOn "B1") ["B1", "B2"]).1 = [] from rfl]
  exact List.not_mem_nil "B2"

/-- C8 (amended): a page create/update failure is an uncaught exception: the
books before the failing one are synced, the failing book's error ends the
whole run, and every book after it is left unprocessed — there is no
per-record isolation. -/
theorem c8_failure_aborts_run (pageOp : String → Except String Nat)
    (pre : List String) (b : String) (rest : List String) (e : String)
    (hpre : ∀ t ∈ pre, (pageOp t).isOk = true)
    (hb : pageOp b = .error e) :
    sync_bookmarks pageOp (pre ++ b :: rest) = (pre, some e) :=
  sync_bookmarks_aborts pageOp pre b rest e hpre hb

/-- C8 witness: book "A" succeeds, "B2" raises, "C" is dropped. -/
theorem c8_failure_aborts_run_witness :
    sync_bookmarks (pageOpFailsOn "B2") (["A"] ++ "B2" :: ["C"]) =
      (["A"], some "APIError") :=
  c8_failure_aborts_run (pageOpFailsOn "B2") ["A"] "B2" ["C"] "APIError"
    (by
      intro t ht
      rw [List.mem_singleton] at ht
      subst ht
      rfl)
    rfl

/-- C9 counterexample: an exception raised by the cover search HTTP call
propagates out of `fetch_book_cover` and aborts the record inside
`get_or_create_page` — the record's remaining steps do not execute, so a
cover lookup failure is not "never aborts the record". -/
theorem c9_counterexample :
    get_or_create_page connErrorHttp "Title" "ISBN" = .error "ConnectionError" ∧
    get_or_create_page connErrorHttp "Title" "ISBN" ≠ .ok ⟨none, true⟩ := by
  refine ⟨rfl, ?_⟩
  intro h
  rw [show get_or_create_page connErrorHttp "Title" "ISBN"
      = Except.error "ConnectionError" from rfl] at h
  exact Except.noConfusion h

/-- C9 (amended): cover absence is non-fatal — an empty search result, or a
found volume whose image probe answers a non-200 status, yields "no cover"
and the record's page steps still execute — but an exception raised by
either HTTP call propagates and aborts the record. -/
theorem c9_cover_absence_vs_failure :
    (∀ (http : CoverHttp) (t i : String), http.search = .ok [] →
      get_or_create_page http t i = .ok ⟨none, true⟩) ∧
    (∀ (http : CoverHttp) (t i bid : String) (status : Nat), bid ≠ "" →
      http.search = .ok [⟨bid, []⟩] →
      http.image (coverImageUrl bid) = .ok status → status ≠ 200 →
      get_or_create_page http t i = .ok ⟨none, true⟩) ∧
    (∀ (http : CoverHttp) (t i e : String), http.search = .error e →
      get_or_create_page http t i = .error e) ∧
    (∀ (http : CoverHttp) (t i bid e : String), bid ≠ "" →
      http.search = .ok [⟨bid, []⟩] →
      http.image (coverImageUrl bid) = .error e →
      get_or_create_page http t i = .error e) := by
  refine ⟨?_, ?_, ?_, ?_⟩
  · intro http t i hs
    unfold get_or_create_page fetch_book_cover
    rw [hs]
    rfl
  · intro http t i bid status hbid hs himg hst
    unfold get_or_create_page fetch_book_cover
    rw [hs]
    simp only [List.find?, List.head?]
    simp [hbid, himg, hst, List.contains]
  · intro http t i e hs
    unfold get_or_create_page fetch_book_cover
    rw [hs]
  · intro http t i bid e hbid hs himg
    unfold get_or_create_page fetch_book_cover
    rw [hs]
    simp only [List.find?, List.head?]
    simp [hbid, himg, List.contains]

/-- C9 witness: the amended theorem at an empty search result and at a 404
image probe. -/
theorem c9_cover_absence_vs_failure_witness :
    get_or_create_page emptySearchHttp "T" "I" = .ok ⟨none, true⟩ ∧
    get_or_create_page notFoundImageHttp "T" "I" = .ok ⟨none, true⟩ :=
  ⟨c9_cover_absence_vs_failure.1 emptySearchHttp "T" "I" rfl,
   c9_cover_absence_vs_failure.2.1 notFoundImageHttp "T" "I" "vol1" 404
     (by decide) rfl rfl (by decide)⟩

/-- C10: the markup compiler never raises on any input string: because every
line is stripped before its indentation is measured, the measured indent is
always 0, the attach-as-child branch (which would hit the uninitialized
`children` key) is unreachable, and every returned block is a top-level
block with no `children` key. -/
theorem c10_compiler_total_and_flat (s : String) :
    ∃ bs, parse_markdown_to_notion_blocks s = .ok bs ∧
      bs.all (fun b => b.children.isNone) = true := by
  obtain ⟨st, hrun, hinv, new, hblocks, hch⟩ :=
    runLines_ok (pySplitLines s) initPState (by intro h; simp [initPState] at h)
  refine ⟨st.notion_blocks, ?_, ?_⟩
  · unfold parse_markdown_to_notion_blocks
    rw [hrun]
  · rw [List.all_eq_true]
    intro b hb
    rw [hblocks] at hb
    have hbn : b ∈ new := by simpa [initPState] using hb
    have hc := hch b hbn
    rw [hc]
    rfl
